import Mathlib

/-!
Verification of the game logic of the `cf_ai_project` repository
(an AI-driven multiplayer country-guessing game on Cloudflare workers).

The development shallowly embeds:
* `src/lib/flags.ts` — answer normalization (`isAnswerCorrect`);
* `src/lib/game-logic.ts` — scoring (`calculateScore`, `evaluateRound`) and
  ranking (`calculateLeaderboard`);
* `src/durable_objects/GameLobby.ts` — the lobby state and its operations
  (`initialize`, `addPlayer`, `handleWebSocketUpgrade`, `webSocketClose`).

Modelling choices:
* JS numbers are embedded as `ℚ`: every arithmetic operation performed by the
  scoring code (`+`, `-`, `/ 100`, `Math.max`) is exact on the inputs the spec
  talks about, and the spec demands real (non-truncated) arithmetic.
* JS strings are embedded as `String`; `s.trim().toLowerCase()` is embedded
  over the character sequence (`List Char`), with `Char.isWhitespace` and
  `Char.toLower`, which agree with the JS functions on ASCII input.
* A JS `Map` is embedded as an insertion-ordered association list
  (`List (String × α)`): `set` replaces the value of an existing key in place
  and otherwise appends, `get` finds the entry, `delete` removes it.
* The durable object's effects are made explicit: `saves` counts the
  `saveState()` calls, `events` records the `broadcast(...)` calls in order.
-/

namespace CfGame

/-- JS `s.trim()` over the character sequence: drop surrounding whitespace. -/
def trimChars (l : List Char) : List Char :=
  ((l.dropWhile Char.isWhitespace).reverse.dropWhile Char.isWhitespace).reverse

/-- JS `s.trim().toLowerCase()` — the normalization both sides of every
comparison in `isAnswerCorrect` (src/lib/flags.ts) undergo. -/
def jsNormalize (s : String) : List Char :=
  (trimChars s.data).map Char.toLower

/-- `CountryFlags` of src/lib/flags.ts: canonical name, emoji, ISO code and
the optional list of accepted alternate names. -/
structure CountryFlags where
  name : String
  emoji : String
  code : String
  alternate_names : Option (List String)
deriving Repr, DecidableEq

/-- `isAnswerCorrect` of src/lib/flags.ts lines 216-235: normalize the
submitted answer and the canonical name, test equality, then test the
normalized answer against each normalized alternate name. -/
def isAnswerCorrect (answer : String) (country : CountryFlags) : Bool :=
  let normalizedAnswer := jsNormalize answer
  let normalizedCountryName := jsNormalize country.name
  if normalizedAnswer = normalizedCountryName then
    true
  else
    (country.alternate_names.getD []).any fun alternateName =>
      decide (normalizedAnswer = jsNormalize alternateName)

/-- `calculateScore` of src/lib/game-logic.ts lines 25-34. -/
def calculateScore (isCorrect : Bool) (responseTimeMs : ℚ) : ℚ :=
  if !isCorrect then 0
  else
    let speedBonus := max 0 (100 - responseTimeMs / 100)
    100 + speedBonus

/-- `PlayerAnswer` of src/lib/game-logic.ts. -/
structure PlayerAnswer where
  playerId : String
  answer : String
  timestamp : ℚ
deriving Repr, DecidableEq

/-- `PlayerScore` of src/lib/game-logic.ts. -/
structure PlayerScore where
  playerId : String
  roundScore : ℚ
  totalScore : ℚ
  isCorrect : Bool
deriving Repr, DecidableEq

/-- `evaluateRound` of src/lib/game-logic.ts lines 36-59: the for-loop pushes
one `PlayerScore` per answer, in input order. -/
def evaluateRound (answers : List PlayerAnswer) (correctCountry : CountryFlags)
    (roundStartTime : ℚ) : List PlayerScore :=
  answers.map fun answer =>
    let isCorrect := isAnswerCorrect answer.answer correctCountry
    let responseTimeMs := answer.timestamp - roundStartTime
    let score := calculateScore isCorrect responseTimeMs
    { playerId := answer.playerId, roundScore := score, totalScore := score,
      isCorrect := isCorrect }

/-- The value type of the player map passed to `calculateLeaderboard`. -/
structure PlayerData where
  name : String
  totalScore : ℚ
deriving Repr, DecidableEq

/-- The entry type returned by `calculateLeaderboard`. -/
structure LeaderboardEntry where
  playerId : String
  playerName : String
  totalScore : ℚ
  rank : Nat
deriving Repr, DecidableEq

/-- Ordered insertion used to embed
`playersArray.sort((a, b) => b.totalScore - a.totalScore)`: the new element is
placed before the first element whose `totalScore` does not exceed it.
`Array.prototype.sort` is stable, and for the total preorder induced by this
comparator a stable sort has exactly one possible output, which
`sortScoreDesc` computes. -/
def insertScoreDesc (e : LeaderboardEntry) :
    List LeaderboardEntry → List LeaderboardEntry
  | [] => [e]
  | x :: xs =>
    if x.totalScore ≤ e.totalScore then e :: x :: xs
    else x :: insertScoreDesc e xs

/-- Stable sort by `totalScore` descending; see `insertScoreDesc`. -/
def sortScoreDesc : List LeaderboardEntry → List LeaderboardEntry
  | [] => []
  | x :: xs => insertScoreDesc x (sortScoreDesc xs)

/-- One step of the rank-assignment loop of `calculateLeaderboard`
(src/lib/game-logic.ts lines 83-98): at position `i` the loop variable
`currentRank` holds `i + 1`; a tie with the previous entry copies the
previous rank, otherwise the entry gets `currentRank`. -/
def rankOf (prev : Option (ℚ × Nat)) (currentRank : Nat) (score : ℚ) : Nat :=
  match prev with
  | some (prevScore, prevRank) => if score = prevScore then prevRank else currentRank
  | none => currentRank

/-- The rank-assignment loop, carrying the previous entry's
`(totalScore, rank)` and the `currentRank` counter. -/
def assignRanksAux (prev : Option (ℚ × Nat)) (currentRank : Nat) :
    List LeaderboardEntry → List LeaderboardEntry
  | [] => []
  | e :: rest =>
    let r := rankOf prev currentRank e.totalScore
    { e with rank := r } ::
      assignRanksAux (some (e.totalScore, r)) (currentRank + 1) rest

/-- The `playersArray` conversion of `calculateLeaderboard`: one entry per
map binding, in insertion order, with rank initialized to 0. -/
def toEntries (players : List (String × PlayerData)) : List LeaderboardEntry :=
  players.map fun p =>
    { playerId := p.1, playerName := p.2.name, totalScore := p.2.totalScore,
      rank := 0 }

/-- `calculateLeaderboard` of src/lib/game-logic.ts lines 61-101: convert the
map to an array of entries with rank 0, sort by `totalScore` descending,
assign ranks. -/
def calculateLeaderboard (players : List (String × PlayerData)) :
    List LeaderboardEntry :=
  assignRanksAux none 1 (sortScoreDesc (toEntries players))

/-- `Player` of src/durable_objects/GameLobby.ts. -/
structure Player where
  id : String
  name : String
  connected : Bool
  totalScore : ℚ
deriving Repr, DecidableEq

/-- `GameStatus` of src/durable_objects/GameLobby.ts. -/
inductive GameStatus
  | waiting
  | countdown
  | playing
  | round_ended
  | finished
deriving Repr, DecidableEq

/-- `CurrentRound` of src/durable_objects/GameLobby.ts. -/
structure CurrentRound where
  number : Nat
  country : CountryFlags
  startTime : ℚ
  answers : List (String × PlayerAnswer)
deriving Repr, DecidableEq

/-- `GameState` of src/durable_objects/GameLobby.ts. -/
structure GameState where
  status : GameStatus
  currentRound : Option CurrentRound
  totalRounds : Nat
deriving Repr, DecidableEq

/-- The broadcast events the embedded operations issue. -/
inductive WSEvent
  | player_joined (playerId playerName : String)
  | player_connected (playerId : String)
  | player_disconnected (playerId : String)
deriving Repr, DecidableEq

/-- JS `Map.get`: the value stored under the key, if any. -/
def mapGet {α : Type} : List (String × α) → String → Option α
  | [], _ => none
  | p :: rest, k => if p.1 = k then some p.2 else mapGet rest k

/-- JS `Map.set`: replace the value of an existing key in place (keys of a JS
`Map` are unique, so replacing the first occurrence is exact), otherwise
append the new binding at the end. -/
def mapSet {α : Type} : List (String × α) → String → α → List (String × α)
  | [], k, v => [(k, v)]
  | p :: rest, k, v => if p.1 = k then (k, v) :: rest else p :: mapSet rest k v

/-- JS `Map.delete`: remove the binding of the key. -/
def mapDelete {α : Type} : List (String × α) → String → List (String × α)
  | [], _ => []
  | p :: rest, k => if p.1 = k then rest else p :: mapDelete rest k

/-- The in-memory state of the `GameLobby` durable object, together with the
explicit effect log: `saves` counts `saveState()` calls, `events` records the
`broadcast(...)` calls in order. The three storage keys written by
`initialize` are kept as fields. -/
structure LobbyState where
  lobbyId : Option String
  invitationCode : Option String
  hostId : Option String
  players : List (String × Player)
  webSockets : List (String × Nat)
  gameState : GameState
  saves : Nat
  events : List WSEvent
deriving Repr, DecidableEq

/-- The field initializers of the `GameLobby` class: empty maps and
`{status: waiting, currentRound: null, totalRounds: 3}`. -/
def initialLobby : LobbyState :=
  { lobbyId := none, invitationCode := none, hostId := none, players := [],
    webSockets := [],
    gameState := { status := .waiting, currentRound := none, totalRounds := 3 },
    saves := 0, events := [] }

/-- `GameLobby.initialize(hostId, hostName, invitationCode)` (lines 107-122):
stores the three keys, registers the host player, saves. The randomly
generated lobby id is passed in explicitly. The method has no failure path:
it never checks whether the lobby was already initialized. -/
def initLobby (s : LobbyState) (hostId hostName invitationCode lobbyId : String) :
    LobbyState :=
  let s1 := { s with lobbyId := some lobbyId,
                     invitationCode := some invitationCode,
                     hostId := some hostId }
  let hostPlayer : Player :=
    { id := hostId, name := hostName, connected := false, totalScore := 0 }
  let s2 := { s1 with players := mapSet s1.players hostId hostPlayer }
  { s2 with saves := s2.saves + 1 }

/-- `GameLobby.addPlayer(playerId, playerName)` (lines 195-207, the handler of
POST /join): build a fresh `Player`, `players.set` it (overwriting any
existing record of the same identity), save, broadcast `player_joined`. -/
def addPlayer (s : LobbyState) (playerId playerName : String) : LobbyState :=
  let player : Player :=
    { id := playerId, name := playerName, connected := false, totalScore := 0 }
  let s1 := { s with players := mapSet s.players playerId player }
  let s2 := { s1 with saves := s1.saves + 1 }
  { s2 with events := s2.events ++ [.player_joined playerId playerName] }

/-- The one failure of `handleWebSocketUpgrade`: a request without a
`playerId` query parameter is answered with status 400. -/
inductive UpgradeError
  | missingPlayerId
deriving Repr, DecidableEq

/-- `GameLobby.handleWebSocketUpgrade` (lines 172-190): reject a request
without a `playerId` (400), otherwise accept the socket for any identity,
record the handle in `webSockets`, and broadcast `player_connected`. No
roster check, no `connected` update and no `saveState` call happen here. -/
def handleWebSocketUpgrade (s : LobbyState) (playerId? : Option String)
    (handle : Nat) : Except UpgradeError LobbyState :=
  match playerId? with
  | none => .error .missingPlayerId
  | some playerId =>
    let s1 := { s with webSockets := mapSet s.webSockets playerId handle }
    .ok { s1 with events := s1.events ++ [.player_connected playerId] }

/-- The mutation `player.connected = false` performed through
`this.players.get(playerId)`: the object stored in the map is updated. -/
def setConnectedFalse (m : List (String × Player)) (k : String) :
    List (String × Player) :=
  m.map fun p => if p.1 = k then (p.1, { p.2 with connected := false }) else p

/-- `GameLobby.webSocketClose` (lines 250-267): with the `playerId` read from
the socket's tags, flip that player's `connected` flag (when the player
exists), delete the handle, save, broadcast `player_disconnected`; with no
tag, do nothing. -/
def webSocketClose (s : LobbyState) (playerId? : Option String) : LobbyState :=
  match playerId? with
  | none => s
  | some playerId =>
    let players1 :=
      match mapGet s.players playerId with
      | some _ => setConnectedFalse s.players playerId
      | none => s.players
    let s1 := { s with players := players1,
                       webSockets := mapDelete s.webSockets playerId }
    let s2 := { s1 with saves := s1.saves + 1 }
    { s2 with events := s2.events ++ [.player_disconnected playerId] }

/-! ## Association-list (JS `Map`) lemmas -/

theorem mapGet_mapSet {α : Type} (m : List (String × α)) (k q : String) (v : α) :
    mapGet (mapSet m k v) q = if q = k then some v else mapGet m q := by
  induction m with
  | nil =>
    rcases eq_or_ne q k with h | h
    · subst h; simp [mapSet, mapGet]
    · have hkq : ¬ k = q := fun hh => h hh.symm
      simp [mapSet, mapGet, h, hkq]
  | cons p rest ih =>
    by_cases hp : p.1 = k
    · rcases eq_or_ne q k with h | h
      · subst h; simp [mapSet, mapGet, hp]
      · have hpq : ¬ p.1 = q := fun hh => h (hh ▸ hp)
        have hkq : ¬ k = q := fun hh => h hh.symm
        simp [mapSet, mapGet, hp, hpq, hkq, h]
    · by_cases hq : p.1 = q
      · have hqk : ¬ q = k := fun hh => hp (hq.trans hh)
        simp [mapSet, mapGet, hp, hq, hqk]
      · simp [mapSet, mapGet, hp, hq, ih]

theorem length_mapSet_of_get {α : Type} {m : List (String × α)} {k : String}
    {w : α} (h : mapGet m k = some w) (v : α) :
    (mapSet m k v).length = m.length := by
  induction m with
  | nil => simp [mapGet] at h
  | cons p rest ih =>
    by_cases hp : p.1 = k
    · simp [mapSet, hp]
    · simp only [mapGet, if_neg hp] at h
      simp [mapSet, hp, ih h]

theorem mapGet_mapDelete_ne {α : Type} (m : List (String × α)) {k q : String}
    (h : q ≠ k) : mapGet (mapDelete m k) q = mapGet m q := by
  have hkq : ¬ k = q := fun hh => h hh.symm
  induction m with
  | nil => simp [mapDelete]
  | cons p rest ih =>
    by_cases hp : p.1 = k
    · have hpq : ¬ p.1 = q := fun hh => h ((hh.symm.trans hp))
      simp [mapDelete, mapGet, hp, hpq, hkq]
    · by_cases hq : p.1 = q
      · simp [mapDelete, mapGet, hp, hq, h]
      · simp [mapDelete, mapGet, hp, hq, ih, h]

theorem mapGet_eq_none_of_not_mem {α : Type} {m : List (String × α)}
    {k : String} (h : k ∉ m.map Prod.fst) : mapGet m k = none := by
  induction m with
  | nil => simp [mapGet]
  | cons p rest ih =>
    simp only [List.map_cons, List.mem_cons, not_or] at h
    have hp : ¬ p.1 = k := fun hh => h.1 hh.symm
    simp [mapGet, hp, ih h.2]

theorem mapGet_mapDelete_self {α : Type} {m : List (String × α)} {k : String}
    (h : (m.map Prod.fst).Nodup) : mapGet (mapDelete m k) k = none := by
  induction m with
  | nil => simp [mapDelete, mapGet]
  | cons p rest ih =>
    simp only [List.map_cons, List.nodup_cons] at h
    by_cases hp : p.1 = k
    · subst hp
      simp only [mapDelete, if_pos rfl]
      exact mapGet_eq_none_of_not_mem h.1
    · simp [mapDelete, mapGet, hp, ih h.2]

theorem mapGet_setConnectedFalse (m : List (String × Player)) (k q : String) :
    mapGet (setConnectedFalse m k) q =
      if q = k then (mapGet m q).map (fun pl => { pl with connected := false })
      else mapGet m q := by
  induction m with
  | nil => rcases eq_or_ne q k with h | h <;> simp [setConnectedFalse, mapGet, h]
  | cons p rest ih =>
    simp only [setConnectedFalse] at ih ⊢
    by_cases hq : p.1 = q
    · rcases eq_or_ne q k with h | h
      · subst h; simp [mapGet, hq]
      · have hpk : ¬ p.1 = k := fun hh => h ((hq.symm.trans hh))
        simp [mapGet, hq, hpk, h]
    · by_cases hpk : p.1 = k
      · have hkq : ¬ k = q := fun hh => hq (hpk.trans hh)
        have hqk : ¬ q = k := fun hh => hq (hpk.trans hh.symm)
        simp [mapGet, hq, hpk, hkq, hqk, ih]
      · simp [mapGet, hq, hpk, ih]

theorem length_setConnectedFalse (m : List (String × Player)) (k : String) :
    (setConnectedFalse m k).length = m.length := by
  simp [setConnectedFalse]

/-! ## Leaderboard lemmas -/

theorem length_assignRanksAux (prev : Option (ℚ × Nat)) (k : Nat)
    (l : List LeaderboardEntry) :
    (assignRanksAux prev k l).length = l.length := by
  induction l generalizing prev k with
  | nil => simp [assignRanksAux]
  | cons e rest ih => simp [assignRanksAux, ih]

theorem assignRanksAux_map_playerId (prev : Option (ℚ × Nat)) (k : Nat)
    (l : List LeaderboardEntry) :
    (assignRanksAux prev k l).map (·.playerId) = l.map (·.playerId) := by
  induction l generalizing prev k with
  | nil => simp [assignRanksAux]
  | cons e rest ih => simp [assignRanksAux, ih]

theorem assignRanksAux_getElem?_totalScore (prev : Option (ℚ × Nat)) (k i : Nat)
    (l : List LeaderboardEntry) :
    ((assignRanksAux prev k l)[i]?).map (·.totalScore) =
      (l[i]?).map (·.totalScore) := by
  induction l generalizing prev k i with
  | nil => simp [assignRanksAux]
  | cons e rest ih =>
    cases i with
    | zero => simp [assignRanksAux]
    | succ j => simp [assignRanksAux, ih]

theorem assignRanksAux_head_rank (l : List LeaderboardEntry) (k : Nat)
    {a : LeaderboardEntry} (h : (assignRanksAux none k l)[0]? = some a) :
    a.rank = k := by
  cases l with
  | nil => simp [assignRanksAux] at h
  | cons e rest =>
    simp only [assignRanksAux, rankOf, List.getElem?_cons_zero, Option.some.injEq] at h
    rw [← h]

theorem assignRanksAux_consecutive (i : Nat) (l : List LeaderboardEntry)
    (prev : Option (ℚ × Nat)) (k : Nat) (a b : LeaderboardEntry)
    (ha : (assignRanksAux prev k l)[i]? = some a)
    (hb : (assignRanksAux prev k l)[i + 1]? = some b) :
    (b.totalScore = a.totalScore → b.rank = a.rank) ∧
    (b.totalScore ≠ a.totalScore → b.rank = k + i + 1) := by
  induction i generalizing l prev k with
  | zero =>
    match l with
    | [] => simp [assignRanksAux] at ha
    | [e] => simp [assignRanksAux] at hb
    | e1 :: e2 :: rest =>
      simp only [assignRanksAux, List.getElem?_cons_zero, List.getElem?_cons_succ,
        Option.some.injEq] at ha hb
      cases ha
      cases hb
      constructor
      · intro ht
        simp at ht
        simp [rankOf, ht]
      · intro ht
        simp at ht
        simp [rankOf, ht]
  | succ j ih =>
    match l with
    | [] => simp [assignRanksAux] at ha
    | e :: rest =>
      simp only [assignRanksAux, List.getElem?_cons_succ] at ha hb
      have hrec := ih rest (some (e.totalScore, rankOf prev k e.totalScore)) (k + 1) ha hb
      refine ⟨hrec.1, fun ht => ?_⟩
      have := hrec.2 ht
      omega

theorem insertScoreDesc_perm (e : LeaderboardEntry) (l : List LeaderboardEntry) :
    (insertScoreDesc e l).Perm (e :: l) := by
  induction l with
  | nil => simp [insertScoreDesc]
  | cons x xs ih =>
    by_cases h : x.totalScore ≤ e.totalScore
    · simp [insertScoreDesc, h]
    · simp only [insertScoreDesc, if_neg h]
      exact (ih.cons x).trans (List.Perm.swap e x xs)

theorem sortScoreDesc_perm (l : List LeaderboardEntry) :
    (sortScoreDesc l).Perm l := by
  induction l with
  | nil => simp [sortScoreDesc]
  | cons x xs ih =>
    exact (insertScoreDesc_perm x (sortScoreDesc xs)).trans (ih.cons x)

theorem mem_insertScoreDesc {a e : LeaderboardEntry} {l : List LeaderboardEntry} :
    a ∈ insertScoreDesc e l ↔ a = e ∨ a ∈ l := by
  rw [(insertScoreDesc_perm e l).mem_iff]
  simp

theorem insertScoreDesc_sorted (e : LeaderboardEntry)
    {l : List LeaderboardEntry}
    (h : l.Pairwise fun a b => b.totalScore ≤ a.totalScore) :
    (insertScoreDesc e l).Pairwise fun a b => b.totalScore ≤ a.totalScore := by
  induction l with
  | nil => simp [insertScoreDesc]
  | cons x xs ih =>
    rcases List.pairwise_cons.mp h with ⟨hx, hxs⟩
    by_cases hc : x.totalScore ≤ e.totalScore
    · rw [insertScoreDesc, if_pos hc]
      refine List.pairwise_cons.mpr ⟨?_, h⟩
      intro y hy
      rcases List.mem_cons.mp hy with rfl | hy
      · exact hc
      · exact le_trans (hx y hy) hc
    · rw [insertScoreDesc, if_neg hc]
      refine List.pairwise_cons.mpr ⟨?_, ih hxs⟩
      intro y hy
      rcases mem_insertScoreDesc.mp hy with rfl | hy
      · exact (not_le.mp hc).le
      · exact hx y hy

theorem sortScoreDesc_sorted (l : List LeaderboardEntry) :
    (sortScoreDesc l).Pairwise fun a b => b.totalScore ≤ a.totalScore := by
  induction l with
  | nil => simp [sortScoreDesc]
  | cons x xs ih => exact insertScoreDesc_sorted x ih

theorem pairwise_getElem?_consecutive {α : Type} {R : α → α → Prop}
    {l : List α} (hl : l.Pairwise R) {i : Nat} {a b : α}
    (ha : l[i]? = some a) (hb : l[i + 1]? = some b) : R a b := by
  induction l generalizing i with
  | nil => simp at ha
  | cons x xs ih =>
    rcases List.pairwise_cons.mp hl with ⟨hx, hxs⟩
    cases i with
    | zero =>
      simp only [List.getElem?_cons_zero, List.getElem?_cons_succ,
        Option.some.injEq] at ha hb
      cases ha
      have hbmem : b ∈ xs := by
        rcases List.getElem?_eq_some.mp hb with ⟨hlt, hget⟩
        exact hget ▸ List.getElem_mem hlt
      exact hx b hbmem
    | succ j =>
      simp only [List.getElem?_cons_succ] at ha hb
      exact ih hxs ha hb

theorem assignRanksAux_rank_const :
    ∀ (l : List LeaderboardEntry) (c : ℚ) (r k : Nat),
      (∀ e ∈ l, e.totalScore = c) →
      ∀ e ∈ assignRanksAux (some (c, r)) k l, e.rank = r
  | [], _, _, _, _ => by simp [assignRanksAux]
  | e :: rest, c, r, k, hall => by
    intro f hf
    have he : e.totalScore = c := hall e (List.mem_cons_self e rest)
    have hrank : rankOf (some (c, r)) k e.totalScore = r := by
      simp [rankOf, he]
    simp only [assignRanksAux, List.mem_cons, hrank] at hf
    rcases hf with rfl | hf
    · rfl
    · have hrest : ∀ x ∈ rest, x.totalScore = c := fun x hx =>
        hall x (List.mem_cons_of_mem e hx)
      rw [he] at hf
      exact assignRanksAux_rank_const rest c r (k + 1) hrest f hf

/-! ## Shared consequences of the embedding -/

theorem mem_sortScoreDesc_totalScore {players : List (String × PlayerData)}
    {c : ℚ} (hall : ∀ p ∈ players, p.2.totalScore = c) :
    ∀ y ∈ sortScoreDesc (toEntries players), y.totalScore = c := by
  intro y hy
  have hy2 : y ∈ toEntries players :=
    ((sortScoreDesc_perm (toEntries players)).mem_iff).mp hy
  rcases List.mem_map.mp hy2 with ⟨p, hp, rfl⟩
  exact hall p hp

theorem calculateLeaderboard_sorted_consecutive
    (players : List (String × PlayerData)) (i : Nat) (a b : LeaderboardEntry)
    (ha : (calculateLeaderboard players)[i]? = some a)
    (hb : (calculateLeaderboard players)[i + 1]? = some b) :
    b.totalScore ≤ a.totalScore := by
  simp only [calculateLeaderboard] at ha hb
  have hta := assignRanksAux_getElem?_totalScore none 1 i
    (sortScoreDesc (toEntries players))
  have htb := assignRanksAux_getElem?_totalScore none 1 (i + 1)
    (sortScoreDesc (toEntries players))
  rw [ha] at hta
  rw [hb] at htb
  cases hsa : (sortScoreDesc (toEntries players))[i]? with
  | none => rw [hsa] at hta; simp at hta
  | some a0 =>
    cases hsb : (sortScoreDesc (toEntries players))[i + 1]? with
    | none => rw [hsb] at htb; simp at htb
    | some b0 =>
      rw [hsa] at hta
      rw [hsb] at htb
      simp only [Option.map_some', Option.some.injEq] at hta htb
      have hR := pairwise_getElem?_consecutive
        (sortScoreDesc_sorted (toEntries players)) hsa hsb
      rw [hta, htb]
      exact hR

/-! ## The claims -/

/-- C1: for every responseTimeMs ≥ 0, `calculateScore` returns 0 when
`isCorrect` is false, and exactly `100 + max 0 (100 - responseTimeMs / 100)`
in exact rational arithmetic when `isCorrect` is true; in particular the
scores at 1000, 5000, 10000 and 15000 milliseconds are 190, 150, 100 and
100. -/
theorem calculateScore_formula (t : ℚ) (h : 0 ≤ t) :
    calculateScore false t = 0 ∧
    calculateScore true t = 100 + max 0 (100 - t / 100) ∧
    calculateScore true 1000 = 190 ∧
    calculateScore true 5000 = 150 ∧
    calculateScore true 10000 = 100 ∧
    calculateScore true 15000 = 100 := by
  refine ⟨by simp [calculateScore], by simp [calculateScore], ?_, ?_, ?_, ?_⟩
  · simp [calculateScore]; norm_num
  · simp [calculateScore]; norm_num
  · simp [calculateScore]; norm_num
  · simp [calculateScore]; norm_num

theorem calculateScore_formula_witness :
    (0 : ℚ) ≤ 0 ∧
    (calculateScore false 0 = 0 ∧
     calculateScore true 0 = 100 + max 0 (100 - 0 / 100) ∧
     calculateScore true 1000 = 190 ∧
     calculateScore true 5000 = 150 ∧
     calculateScore true 10000 = 100 ∧
     calculateScore true 15000 = 100) :=
  ⟨le_refl 0, calculateScore_formula 0 (le_refl 0)⟩

/-- C2 counterexample: the claim says `calculateScore true t = 200` for every
`t ≤ 0`, but the code does not clamp a negative response time: at
t = -1000 the speed bonus is `100 - (-1000)/100 = 110` and the score is 210,
not 200. -/
theorem calculateScore_neg_not_clamped :
    calculateScore true (-1000) = 210 ∧ calculateScore true (-1000) ≠ 200 := by
  constructor
  · simp [calculateScore]; norm_num
  · simp [calculateScore]; norm_num

/-- C2 amended: for every responseTimeMs ≤ 0, `calculateScore true` returns
`200 - responseTimeMs / 100`, which is at least 200 (and exactly 200 only at
0): a negative elapsed time increases the bonus beyond 100 instead of being
treated as 0 elapsed. -/
theorem calculateScore_nonpos_amended (t : ℚ) (h : t ≤ 0) :
    calculateScore true t = 200 - t / 100 ∧ 200 ≤ calculateScore true t := by
  have hdiv : t / 100 ≤ 0 := by
    apply div_nonpos_of_nonpos_of_nonneg h
    norm_num
  have hb : (0 : ℚ) ≤ 100 - t / 100 := by linarith
  have hval : calculateScore true t = 100 + (100 - t / 100) := by
    simp [calculateScore, max_eq_right hb]
  constructor
  · rw [hval]; ring
  · rw [hval]; linarith

theorem calculateScore_nonpos_amended_witness :
    (0 : ℚ) ≤ 0 ∧
    (calculateScore true 0 = 200 - 0 / 100 ∧ 200 ≤ calculateScore true 0) :=
  ⟨le_refl 0, calculateScore_nonpos_amended 0 (le_refl 0)⟩

/-- The target of C4's example: name "France" with accepted alternates "FR"
and "French Republic". -/
def franceTarget : CountryFlags :=
  { name := "France", emoji := "france-flag", code := "fr",
    alternate_names := some ["FR", "French Republic"] }

/-- The five example answers of C4, submitted at the round start. -/
def franceAnswers : List PlayerAnswer :=
  [{ playerId := "p1", answer := "France", timestamp := 0 },
   { playerId := "p2", answer := "FR", timestamp := 0 },
   { playerId := "p3", answer := "french republic", timestamp := 0 },
   { playerId := "p4", answer := " france ", timestamp := 0 },
   { playerId := "p5", answer := "Franc", timestamp := 0 }]

/-- C4: `evaluateRound` produces exactly one `PlayerScore` per answer, in
input order, whose correctness is `isAnswerCorrect` (trim + case-fold against
the canonical name and the alternates) and whose two score fields are
`calculateScore` at `answer.timestamp - roundStartTime`; on the France
example the answers "France", "FR", "french republic" and " france " are
correct and "Franc" is not. -/
theorem evaluateRound_per_answer (answers : List PlayerAnswer)
    (target : CountryFlags) (roundStartTime : ℚ) :
    (evaluateRound answers target roundStartTime).length = answers.length ∧
    (∀ (i : Nat) (a : PlayerAnswer), answers[i]? = some a →
      (evaluateRound answers target roundStartTime)[i]? = some
        { playerId := a.playerId,
          roundScore := calculateScore (isAnswerCorrect a.answer target)
            (a.timestamp - roundStartTime),
          totalScore := calculateScore (isAnswerCorrect a.answer target)
            (a.timestamp - roundStartTime),
          isCorrect := isAnswerCorrect a.answer target }) ∧
    (evaluateRound franceAnswers franceTarget 0).map (·.isCorrect) =
      [true, true, true, true, false] := by
  refine ⟨by simp [evaluateRound], ?_, by decide⟩
  intro i a ha
  simp [evaluateRound, ha]

theorem evaluateRound_per_answer_witness :
    franceAnswers[0]? = some { playerId := "p1", answer := "France", timestamp := 0 } ∧
    (evaluateRound franceAnswers franceTarget 0)[0]? = some
      { playerId := "p1",
        roundScore := calculateScore (isAnswerCorrect "France" franceTarget) (0 - 0),
        totalScore := calculateScore (isAnswerCorrect "France" franceTarget) (0 - 0),
        isCorrect := isAnswerCorrect "France" franceTarget } :=
  ⟨rfl, (evaluateRound_per_answer franceAnswers franceTarget 0).2.1 0
    { playerId := "p1", answer := "France", timestamp := 0 } rfl⟩

/-- C10: in every `PlayerScore` produced by `evaluateRound`, `totalScore`
equals `roundScore`: the function never computes a cumulative total. -/
theorem evaluateRound_totalScore_eq_roundScore (answers : List PlayerAnswer)
    (target : CountryFlags) (roundStartTime : ℚ) :
    (evaluateRound answers target roundStartTime).map (·.totalScore) =
      (evaluateRound answers target roundStartTime).map (·.roundScore) := by
  simp [evaluateRound, List.map_map]

/-- C3 example input: totals 500, 500, 300. -/
def exA : List (String × PlayerData) :=
  [("a", { name := "A", totalScore := 500 }),
   ("b", { name := "B", totalScore := 500 }),
   ("c", { name := "C", totalScore := 300 })]

/-- C3 example input: totals 500, 400, 400, 400, 100. -/
def exB : List (String × PlayerData) :=
  [("p1", { name := "P1", totalScore := 500 }),
   ("p2", { name := "P2", totalScore := 400 }),
   ("p3", { name := "P3", totalScore := 400 }),
   ("p4", { name := "P4", totalScore := 400 }),
   ("p5", { name := "P5", totalScore := 100 })]

/-- C3: `calculateLeaderboard` sorts by `totalScore` descending and assigns
standard competition ranks: the first entry has rank 1; each subsequent entry
gets its predecessor's rank when the totals are equal and its 1-based
position otherwise; totals 500,500,300 give ranks 1,1,3; totals
500,400,400,400,100 give ranks 1,2,2,2,5; when every player of the input has
the same total, every entry has rank 1. -/
theorem calculateLeaderboard_competition_ranking
    (players : List (String × PlayerData)) :
    (∀ e : LeaderboardEntry,
      (calculateLeaderboard players)[0]? = some e → e.rank = 1) ∧
    (∀ (i : Nat) (a b : LeaderboardEntry),
      (calculateLeaderboard players)[i]? = some a →
      (calculateLeaderboard players)[i + 1]? = some b →
      b.totalScore ≤ a.totalScore ∧
      (b.totalScore = a.totalScore → b.rank = a.rank) ∧
      (b.totalScore ≠ a.totalScore → b.rank = i + 2)) ∧
    (calculateLeaderboard exA).map (·.rank) = [1, 1, 3] ∧
    (calculateLeaderboard exB).map (·.rank) = [1, 2, 2, 2, 5] ∧
    (∀ c : ℚ, (∀ p ∈ players, p.2.totalScore = c) →
      ∀ e ∈ calculateLeaderboard players, e.rank = 1) := by
  refine ⟨?_, ?_, by decide, by decide, ?_⟩
  · intro e he
    simp only [calculateLeaderboard] at he
    exact assignRanksAux_head_rank _ 1 he
  · intro i a b ha hb
    refine ⟨calculateLeaderboard_sorted_consecutive players i a b ha hb, ?_⟩
    simp only [calculateLeaderboard] at ha hb
    have hrec := assignRanksAux_consecutive i (sortScoreDesc (toEntries players))
      none 1 a b ha hb
    refine ⟨hrec.1, fun ht => ?_⟩
    have := hrec.2 ht
    omega
  · intro c hall e he
    simp only [calculateLeaderboard] at he
    have hmem := mem_sortScoreDesc_totalScore hall
    rcases hsort : sortScoreDesc (toEntries players) with _ | ⟨x, rest⟩
    · rw [hsort] at he
      simp [assignRanksAux] at he
    · rw [hsort] at he
      have hx : x.totalScore = c :=
        hmem x (hsort ▸ List.mem_cons_self x rest)
      simp only [assignRanksAux, List.mem_cons] at he
      rcases he with rfl | he
      · rfl
      · have hrest : ∀ y ∈ rest, y.totalScore = c := fun y hy =>
          hmem y (hsort ▸ List.mem_cons_of_mem x hy)
        rw [hx] at he
        have := assignRanksAux_rank_const rest c
          (rankOf none 1 c) 2 hrest e he
        simpa [rankOf] using this

theorem calculateLeaderboard_competition_ranking_witness :
    ({ playerId := "b", playerName := "B", totalScore := 500, rank := 1 }
        : LeaderboardEntry).totalScore ≤
      ({ playerId := "a", playerName := "A", totalScore := 500, rank := 1 }
        : LeaderboardEntry).totalScore ∧
    (({ playerId := "b", playerName := "B", totalScore := 500, rank := 1 }
        : LeaderboardEntry).totalScore =
      ({ playerId := "a", playerName := "A", totalScore := 500, rank := 1 }
        : LeaderboardEntry).totalScore →
      ({ playerId := "b", playerName := "B", totalScore := 500, rank := 1 }
        : LeaderboardEntry).rank =
      ({ playerId := "a", playerName := "A", totalScore := 500, rank := 1 }
        : LeaderboardEntry).rank) ∧
    (({ playerId := "b", playerName := "B", totalScore := 500, rank := 1 }
        : LeaderboardEntry).totalScore ≠
      ({ playerId := "a", playerName := "A", totalScore := 500, rank := 1 }
        : LeaderboardEntry).totalScore →
      ({ playerId := "b", playerName := "B", totalScore := 500, rank := 1 }
        : LeaderboardEntry).rank = 0 + 2) :=
  (calculateLeaderboard_competition_ranking exA).2.1 0 _ _ (by decide) (by decide)

/-- C9 example input: totals 200 and 350. -/
def exC : List (String × PlayerData) :=
  [("x", { name := "X", totalScore := 200 }),
   ("y", { name := "Y", totalScore := 350 })]

/-- C9: `calculateLeaderboard` returns exactly one entry per player of the
input (same length and the same identities as a multiset), with the returned
totals in non-increasing order; the empty map yields the empty list. -/
theorem calculateLeaderboard_shape (players : List (String × PlayerData)) :
    (calculateLeaderboard players).length = players.length ∧
    ((calculateLeaderboard players).map (·.playerId)).Perm
      (players.map (·.1)) ∧
    (∀ (i : Nat) (a b : LeaderboardEntry),
      (calculateLeaderboard players)[i]? = some a →
      (calculateLeaderboard players)[i + 1]? = some b →
      b.totalScore ≤ a.totalScore) ∧
    calculateLeaderboard ([] : List (String × PlayerData)) = [] := by
  refine ⟨?_, ?_, ?_, rfl⟩
  · simp only [calculateLeaderboard]
    rw [length_assignRanksAux,
      (sortScoreDesc_perm (toEntries players)).length_eq]
    simp [toEntries]
  · simp only [calculateLeaderboard]
    rw [assignRanksAux_map_playerId]
    have hperm := (sortScoreDesc_perm (toEntries players)).map
      (fun e : LeaderboardEntry => e.playerId)
    have harr : (toEntries players).map (·.playerId) = players.map (·.1) := by
      simp [toEntries, List.map_map]
    exact harr ▸ hperm
  · exact fun i a b ha hb =>
      calculateLeaderboard_sorted_consecutive players i a b ha hb

theorem calculateLeaderboard_shape_witness :
    ({ playerId := "x", playerName := "X", totalScore := 200, rank := 2 }
        : LeaderboardEntry).totalScore ≤
      ({ playerId := "y", playerName := "Y", totalScore := 350, rank := 1 }
        : LeaderboardEntry).totalScore :=
  (calculateLeaderboard_shape exC).2.2.1 0 _ _ (by decide) (by decide)

/-- A lobby in which player "p1" has accumulated a totalScore of 50. -/
def rejoinState : LobbyState :=
  { initialLobby with
    players := [("p1",
      { id := "p1", name := "Alice", connected := true, totalScore := 50 })] }

/-- C5 counterexample: joining again with the already-known identity "p1" is
not a no-op rejoin — `addPlayer` unconditionally overwrites the record with a
fresh `Player`, resetting the accumulated totalScore 50 to 0 and `connected`
to false. -/
theorem addPlayer_rejoin_resets :
    mapGet rejoinState.players "p1" =
      some { id := "p1", name := "Alice", connected := true, totalScore := 50 } ∧
    mapGet (addPlayer rejoinState "p1" "Alice").players "p1" =
      some { id := "p1", name := "Alice", connected := false, totalScore := 0 } ∧
    mapGet (addPlayer rejoinState "p1" "Alice").players "p1" ≠
      mapGet rejoinState.players "p1" := by
  refine ⟨rfl, rfl, ?_⟩
  simp [addPlayer, rejoinState, initialLobby, mapGet, mapSet]

/-- C5 amended: joining with an already-known identity does not insert a
duplicate — the roster length is unchanged — but it replaces that player's
record with a fresh `Player` carrying the given name, `connected = false` and
`totalScore = 0` (so the accumulated totalScore is reset, not preserved);
every other player's record and the game state are unchanged, and
`player_joined` is broadcast. -/
theorem addPlayer_rejoin_amended (s : LobbyState) (pid nm : String)
    (w : Player) (h : mapGet s.players pid = some w) :
    (addPlayer s pid nm).players.length = s.players.length ∧
    mapGet (addPlayer s pid nm).players pid =
      some { id := pid, name := nm, connected := false, totalScore := 0 } ∧
    (∀ q, q ≠ pid →
      mapGet (addPlayer s pid nm).players q = mapGet s.players q) ∧
    (addPlayer s pid nm).gameState = s.gameState ∧
    (addPlayer s pid nm).events =
      s.events ++ [WSEvent.player_joined pid nm] := by
  refine ⟨?_, ?_, ?_, rfl, rfl⟩
  · show (mapSet s.players pid _).length = s.players.length
    exact length_mapSet_of_get h _
  · show mapGet (mapSet s.players pid _) pid = _
    rw [mapGet_mapSet]
    simp
  · intro q hq
    show mapGet (mapSet s.players pid _) q = mapGet s.players q
    rw [mapGet_mapSet]
    simp [hq]

theorem addPlayer_rejoin_amended_witness :
    (addPlayer rejoinState "p1" "Alice").players.length =
      rejoinState.players.length ∧
    mapGet (addPlayer rejoinState "p1" "Alice").players "p1" =
      some { id := "p1", name := "Alice", connected := false, totalScore := 0 } ∧
    (∀ q, q ≠ "p1" →
      mapGet (addPlayer rejoinState "p1" "Alice").players q =
        mapGet rejoinState.players q) ∧
    (addPlayer rejoinState "p1" "Alice").gameState = rejoinState.gameState ∧
    (addPlayer rejoinState "p1" "Alice").events =
      rejoinState.events ++ [WSEvent.player_joined "p1" "Alice"] :=
  addPlayer_rejoin_amended rejoinState "p1" "Alice"
    { id := "p1", name := "Alice", connected := true, totalScore := 50 } rfl

/-- The state after a first `initialize` call on a fresh session. -/
def onceInitialized : LobbyState :=
  initLobby initialLobby "h" "Alice" "CODE1" "L1"

/-- C6 counterexample: a second `initialize` call on the same session does
not fail with AlreadyInitialized — the method has no failure path — it
re-initializes: the stored invitation code and lobby id are overwritten and
the host record is replaced. -/
theorem initLobby_twice_reinitializes :
    onceInitialized.invitationCode = some "CODE1" ∧
    (initLobby onceInitialized "h" "Bob" "CODE2" "L2").invitationCode =
      some "CODE2" ∧
    (initLobby onceInitialized "h" "Bob" "CODE2" "L2").lobbyId = some "L2" ∧
    mapGet (initLobby onceInitialized "h" "Bob" "CODE2" "L2").players "h" =
      some { id := "h", name := "Bob", connected := false, totalScore := 0 } :=
  ⟨rfl, rfl, rfl, rfl⟩

/-- C6 amended: `initialize` never fails: every call — including a repeated
call on the same session — overwrites the stored lobbyId, invitationCode and
hostId and upserts the host as a `Player` with totalScore 0 and
connected = false, leaving the game state and the other players unchanged;
on a fresh session the status is `waiting` (the field default) and the host
becomes the sole roster entry. -/
theorem initLobby_amended (s : LobbyState) (hid hnm code lid : String) :
    mapGet (initLobby s hid hnm code lid).players hid =
      some { id := hid, name := hnm, connected := false, totalScore := 0 } ∧
    (initLobby s hid hnm code lid).invitationCode = some code ∧
    (initLobby s hid hnm code lid).hostId = some hid ∧
    (initLobby s hid hnm code lid).lobbyId = some lid ∧
    (initLobby s hid hnm code lid).gameState = s.gameState ∧
    (∀ q, q ≠ hid →
      mapGet (initLobby s hid hnm code lid).players q = mapGet s.players q) ∧
    (initLobby initialLobby hid hnm code lid).gameState.status =
      GameStatus.waiting ∧
    (initLobby initialLobby hid hnm code lid).players =
      [(hid, { id := hid, name := hnm, connected := false, totalScore := 0 })] := by
  refine ⟨?_, rfl, rfl, rfl, rfl, ?_, rfl, rfl⟩
  · show mapGet (mapSet s.players hid _) hid = _
    rw [mapGet_mapSet]
    simp
  · intro q hq
    show mapGet (mapSet s.players hid _) q = mapGet s.players q
    rw [mapGet_mapSet]
    simp [hq]

/-- A lobby whose roster contains only the identity "host". -/
def hostOnlyState : LobbyState :=
  { initialLobby with
    players := [("host",
      { id := "host", name := "Ann", connected := false, totalScore := 0 })] }

/-- C7 counterexample: the identity "ghost" never joined, yet the WebSocket
upgrade succeeds — there is no UnknownPlayer failure — registering the handle
and broadcasting `player_connected`, while the roster, the `connected` flags
and the save counter stay untouched. -/
theorem upgrade_unknown_player_accepted :
    mapGet hostOnlyState.players "ghost" = none ∧
    handleWebSocketUpgrade hostOnlyState (some "ghost") 7 =
      Except.ok { hostOnlyState with
        webSockets := [("ghost", 7)],
        events := [WSEvent.player_connected "ghost"] } :=
  ⟨rfl, rfl⟩

/-- C7 amended: the upgrade fails only when the request carries no playerId
(answered 400); for any playerId — joined or not — it succeeds, registers the
handle (replacing a previous handle of the same identity and keeping the
others) and broadcasts `player_connected`; it does not set the Player's
`connected` flag and does not persist: roster, game state and save counter
are unchanged. -/
theorem upgrade_amended (s : LobbyState) (pid : String) (hd : Nat) :
    handleWebSocketUpgrade s none hd =
      Except.error UpgradeError.missingPlayerId ∧
    ∃ s1 : LobbyState, handleWebSocketUpgrade s (some pid) hd = Except.ok s1 ∧
      mapGet s1.webSockets pid = some hd ∧
      (∀ q, q ≠ pid → mapGet s1.webSockets q = mapGet s.webSockets q) ∧
      s1.players = s.players ∧
      s1.saves = s.saves ∧
      s1.gameState = s.gameState ∧
      s1.events = s.events ++ [WSEvent.player_connected pid] := by
  refine ⟨rfl, _, rfl, ?_, ?_, rfl, rfl, rfl, rfl⟩
  · show mapGet (mapSet s.webSockets pid hd) pid = some hd
    rw [mapGet_mapSet]
    simp
  · intro q hq
    show mapGet (mapSet s.webSockets pid hd) q = mapGet s.webSockets q
    rw [mapGet_mapSet]
    simp [hq]

/-- C8: for a joined identity, `webSocketClose` (disconnect) flips exactly
that player's `connected` flag to false — keeping its id, name and totalScore
and every other player's record — removes exactly that identity's handle from
the registry, deletes no player, leaves the game state untouched, persists
once and broadcasts `player_disconnected`. -/
theorem webSocketClose_disconnect_frame (s : LobbyState) (pid : String)
    (pl : Player) (hp : mapGet s.players pid = some pl)
    (hkeys : (s.webSockets.map Prod.fst).Nodup) :
    mapGet (webSocketClose s (some pid)).players pid =
      some { pl with connected := false } ∧
    (∀ q, q ≠ pid →
      mapGet (webSocketClose s (some pid)).players q = mapGet s.players q) ∧
    (webSocketClose s (some pid)).players.length = s.players.length ∧
    mapGet (webSocketClose s (some pid)).webSockets pid = none ∧
    (∀ q, q ≠ pid →
      mapGet (webSocketClose s (some pid)).webSockets q =
        mapGet s.webSockets q) ∧
    (webSocketClose s (some pid)).gameState = s.gameState ∧
    (webSocketClose s (some pid)).saves = s.saves + 1 ∧
    (webSocketClose s (some pid)).events =
      s.events ++ [WSEvent.player_disconnected pid] := by
  have hplayers : (webSocketClose s (some pid)).players =
      setConnectedFalse s.players pid := by
    simp [webSocketClose, hp]
  refine ⟨?_, ?_, ?_, ?_, ?_, rfl, rfl, rfl⟩
  · rw [hplayers, mapGet_setConnectedFalse]
    simp [hp]
  · intro q hq
    rw [hplayers, mapGet_setConnectedFalse]
    simp [hq]
  · rw [hplayers, length_setConnectedFalse]
  · show mapGet (mapDelete s.webSockets pid) pid = none
    exact mapGet_mapDelete_self hkeys
  · intro q hq
    show mapGet (mapDelete s.webSockets pid) q = mapGet s.webSockets q
    exact mapGet_mapDelete_ne _ hq

/-- A lobby with two joined players and two live sockets. -/
def closeState : LobbyState :=
  { initialLobby with
    players := [("p1",
      { id := "p1", name := "Alice", connected := true, totalScore := 50 }),
      ("p2", { id := "p2", name := "Bob", connected := true, totalScore := 30 })],
    webSockets := [("p1", 1), ("p2", 2)] }

theorem webSocketClose_disconnect_frame_witness :
    mapGet (webSocketClose closeState (some "p1")).players "p1" =
      some { id := "p1", name := "Alice", connected := false, totalScore := 50 } ∧
    (∀ q, q ≠ "p1" →
      mapGet (webSocketClose closeState (some "p1")).players q =
        mapGet closeState.players q) ∧
    (webSocketClose closeState (some "p1")).players.length =
      closeState.players.length ∧
    mapGet (webSocketClose closeState (some "p1")).webSockets "p1" = none ∧
    (∀ q, q ≠ "p1" →
      mapGet (webSocketClose closeState (some "p1")).webSockets q =
        mapGet closeState.webSockets q) ∧
    (webSocketClose closeState (some "p1")).gameState = closeState.gameState ∧
    (webSocketClose closeState (some "p1")).saves = closeState.saves + 1 ∧
    (webSocketClose closeState (some "p1")).events =
      closeState.events ++ [WSEvent.player_disconnected "p1"] :=
  webSocketClose_disconnect_frame closeState "p1"
    { id := "p1", name := "Alice", connected := true, totalScore := 50 }
    rfl (by decide)

end CfGame
